import Mathlib

/-!
Verification of the delegation-point tracker of `iterator/iter_delegpt.h`
(unbound's iterator module).  The repository provides the header with the
declarations and documentation of the operations; the function bodies live in
`iter_delegpt.c`, which is not part of the sources here.  The operations are
therefore modelled from the specification's description of each operation,
over a shallow value embedding: linked lists become Lean lists, wire-format
domain names and socket addresses become byte lists, and every mutator is an
explicit state-passing function `delegpt → delegpt`.
-/

/-- A wire-format domain name: a list of bytes (length-prefixed labels). -/
abbrev Dname := List Nat

/-- Lowercase one byte for case-insensitive wire-format name comparison. -/
def dname_lower_byte (b : Nat) : Nat :=
  if 65 ≤ b ∧ b ≤ 90 then b + 32 else b

/-- Canonical (lowercased) form of a wire-format name. -/
def dname_canon (n : Dname) : Dname := n.map dname_lower_byte

/-- Case-insensitive wire-format name equality (equal length and bytes,
letters compared without case). -/
def dname_eq (a b : Dname) : Bool := dname_canon a == dname_canon b

/-- Number of labels in a wire-format name (`namelabs` of the header). -/
def dname_count_labels : List Nat → Nat
  | [] => 0
  | 0 :: _ => 1
  | Nat.succ n :: rest => 1 + dname_count_labels (rest.drop (Nat.succ n))
termination_by l => l.length
decreasing_by
  simp only [List.length_drop, List.length_cons]
  omega

/-- Model of `struct delegpt_ns`: one nameserver name of a delegation point, with its
`resolved` flag (`false` = not queried for yet). -/
structure delegpt_ns where
  name : Dname
  resolved : Bool
deriving DecidableEq, Repr

/-- Model of `struct delegpt_addr`: one candidate target address.  `addr`/`addrlen`
model the `sockaddr_storage` contents and `socklen_t` length; `attempts` and
`sel_rtt` are the driver's counters. -/
structure delegpt_addr where
  addr : List Nat
  addrlen : Nat
  attempts : Nat
  sel_rtt : Int
deriving DecidableEq, Repr

/-- Model of `struct delegpt`: the delegation point.  The three intrusive linked lists
(`target_list`, `usable_list`, `result_list`) become three Lean lists of
`delegpt_addr` values; `namelen` is `name.length` and is not stored
separately. -/
structure delegpt where
  name : Option Dname
  namelabs : Nat
  nslist : List delegpt_ns
  target_list : List delegpt_addr
  usable_list : List delegpt_addr
  result_list : List delegpt_addr
deriving DecidableEq, Repr

/-- The dedup key of an address entry: address value plus length. -/
def addr_key (e : delegpt_addr) : List Nat × Nat := (e.addr, e.addrlen)

/-- Dedup keys of a whole address list. -/
def addr_keys (l : List delegpt_addr) : List (List Nat × Nat) :=
  l.map addr_key

/-- Modelled from the spec: `delegpt_create` returns the empty delegation point with no name and empty lists.
Modelled from the spec: allocation is external and arena-scoped, so the
allocation-failure path of the C function is not modelled. -/
def delegpt_create : delegpt :=
  { name := none, namelabs := 0, nslist := [], target_list := [],
    usable_list := [], result_list := [] }

/-- Modelled from the spec: `delegpt_set_name`, replaces `dp.name` and the
derived `namelabs` with a copy of `name`; does not touch the nameserver or
address lists (body of `delegpt_set_name` in iter_delegpt.c is not in src). -/
def delegpt_set_name (dp : delegpt) (nm : Dname) : delegpt :=
  { dp with name := some nm, namelabs := dname_count_labels nm }

/-- Modelled from the spec: `delegpt_find_ns` finds the nameserver entry with this name,
case-insensitive exact wire-format match. -/
def delegpt_find_ns (dp : delegpt) (nm : Dname) : Option delegpt_ns :=
  dp.nslist.find? (fun ns => dname_eq ns.name nm)

/-- Modelled from the spec: `delegpt_add_ns`, appends a `delegpt_ns` for
`name` with `resolved = false` unless an entry with that name
(case-insensitive) already exists, in which case it is a no-op (body of
`delegpt_add_ns` in iter_delegpt.c is not in src). -/
def delegpt_add_ns (dp : delegpt) (nm : Dname) : delegpt :=
  if (delegpt_find_ns dp nm).isSome then dp
  else { dp with nslist := dp.nslist ++ [{ name := nm, resolved := false }] }

/-- Whether an address (value + length) is already present in `target_list`. -/
def delegpt_addr_mem (dp : delegpt) (a : List Nat) (al : Nat) : Bool :=
  dp.target_list.any (fun e => e.addr == a && e.addrlen == al)

/-- Modelled from the spec: `delegpt_add_addr`, if the address (same bytes and
length) is not already present in `target_list`, a fresh entry with
`attempts = 0` is inserted into `target_list` and into `usable_list` (newly
discovered addresses start usable, never directly in `result_list`); if it is
already present, no new node is created and membership is unchanged (body of
`delegpt_add_addr` in iter_delegpt.c is not in src). -/
def delegpt_add_addr (dp : delegpt) (a : List Nat) (al : Nat) : delegpt :=
  if delegpt_addr_mem dp a al then dp
  else
    let e : delegpt_addr := { addr := a, addrlen := al, attempts := 0, sel_rtt := 0 }
    { dp with target_list := dp.target_list ++ [e],
              usable_list := dp.usable_list ++ [e] }

/-- Mark the first nameserver entry matching `nm` as resolved. -/
def ns_mark_resolved : List delegpt_ns → Dname → List delegpt_ns
  | [], _ => []
  | ns :: rest, nm =>
    if dname_eq ns.name nm then { ns with resolved := true } :: rest
    else ns :: ns_mark_resolved rest nm

/-- Modelled from the spec: `delegpt_add_target`, if `name` matches an
existing nameserver entry, that entry is marked `resolved = true` and the
address is inserted with the `delegpt_add_addr` logic; if the name has no
matching entry the address is still added but no resolved flag is set (the
spec flags this contract-violation path as "the call still may add the
address but cannot mark any NS resolved"; body of `delegpt_add_target` in
iter_delegpt.c is not in src). -/
def delegpt_add_target (dp : delegpt) (nm : Dname) (a : List Nat) (al : Nat) :
    delegpt :=
  match delegpt_find_ns dp nm with
  | some _ =>
      delegpt_add_addr { dp with nslist := ns_mark_resolved dp.nslist nm } a al
  | none => delegpt_add_addr dp a al

/-- Modelled from the spec: `delegpt_add_unused_targets`, moves every entry
currently in `usable_list` into `result_list`, clearing `usable_list`; the
existing members of `result_list` are not reordered and the moved entries are
appended after them (body of `delegpt_add_unused_targets` in iter_delegpt.c
is not in src). -/
def delegpt_add_unused_targets (dp : delegpt) : delegpt :=
  { dp with result_list := dp.result_list ++ dp.usable_list, usable_list := [] }

/-- The record types relevant to the delegation point. -/
inductive rr_type where
  | ns
  | a
  | aaaa
  | other
deriving DecidableEq, Repr

/-- Model of `struct ub_packed_rrset_key` as consumed here: owner name, type, and the
decoded rdata of each record (nameserver names for NS, address bytes for
A/AAAA). -/
structure ub_packed_rrset_key where
  dname : Dname
  rtype : rr_type
  rdata : List (List Nat)
deriving DecidableEq, Repr

/-- Modelled from the spec: `delegpt_rrset_add_ns`, calls `delegpt_add_ns`
for every nameserver name in the NS RRset's rdata, in RRset order (body of
`delegpt_rrset_add_ns` in iter_delegpt.c is not in src). -/
def delegpt_rrset_add_ns (dp : delegpt) (rrset : ub_packed_rrset_key) :
    delegpt :=
  rrset.rdata.foldl (fun d nm => delegpt_add_ns d nm) dp

/-- IPv4 address length used for dedup of A records. -/
def a_addrlen : Nat := 4

/-- IPv6 address length used for dedup of AAAA records. -/
def aaaa_addrlen : Nat := 16

/-- Modelled from the spec: `delegpt_add_rrset_A`, if the RRset's owner name
matches an existing nameserver entry, each A record is added via
`delegpt_add_target`; records whose owner name matches no nameserver entry
are silently ignored (glue for names not part of this delegation; body of
`delegpt_add_rrset_A` in iter_delegpt.c is not in src). -/
def delegpt_add_rrset_A (dp : delegpt) (rrset : ub_packed_rrset_key) :
    delegpt :=
  if (delegpt_find_ns dp rrset.dname).isSome then
    rrset.rdata.foldl (fun d rd => delegpt_add_target d rrset.dname rd a_addrlen) dp
  else dp

/-- Modelled from the spec: `delegpt_add_rrset_AAAA`, as `delegpt_add_rrset_A`
but for AAAA records (body of `delegpt_add_rrset_AAAA` in iter_delegpt.c is
not in src). -/
def delegpt_add_rrset_AAAA (dp : delegpt) (rrset : ub_packed_rrset_key) :
    delegpt :=
  if (delegpt_find_ns dp rrset.dname).isSome then
    rrset.rdata.foldl (fun d rd => delegpt_add_target d rrset.dname rd aaaa_addrlen) dp
  else dp

/-- Modelled from the spec: `delegpt_add_rrset`, dispatches on the record
type to the NS/A/AAAA handler; other record types are ignored (body of
`delegpt_add_rrset` in iter_delegpt.c is not in src). -/
def delegpt_add_rrset (dp : delegpt) (rrset : ub_packed_rrset_key) : delegpt :=
  match rrset.rtype with
  | .ns => delegpt_rrset_add_ns dp rrset
  | .a => delegpt_add_rrset_A dp rrset
  | .aaaa => delegpt_add_rrset_AAAA dp rrset
  | .other => dp

/-- Modelled from the spec: `delegpt_count_ns` returns (total NS count, count with `resolved = false`). -/
def delegpt_count_ns (dp : delegpt) : Nat × Nat :=
  (dp.nslist.length, (dp.nslist.filter (fun ns => !ns.resolved)).length)

/-- Modelled from the spec: `delegpt_count_addr` returns (total addresses in `target_list`, number in
`result_list`, number in `usable_list`). -/
def delegpt_count_addr (dp : delegpt) : Nat × Nat × Nat :=
  (dp.target_list.length, dp.result_list.length, dp.usable_list.length)

/-- Modelled from the spec: `delegpt_count_missing_targets` returns the number of nameserver entries whose
`resolved` flag is still false.  Modelled from the spec (body of
`delegpt_count_missing_targets` in iter_delegpt.c is not in src). -/
def delegpt_count_missing_targets (dp : delegpt) : Nat :=
  (dp.nslist.filter (fun ns => !ns.resolved)).length

/-- Deep copy of one nameserver node. -/
def delegpt_ns_copy (ns : delegpt_ns) : delegpt_ns :=
  { name := ns.name, resolved := ns.resolved }

/-- Deep copy of one address node. -/
def delegpt_addr_copy (e : delegpt_addr) : delegpt_addr :=
  { addr := e.addr, addrlen := e.addrlen, attempts := e.attempts,
    sel_rtt := e.sel_rtt }

/-- Modelled from the spec: `delegpt_copy`, a fully independent deep clone
with identical name, nameserver list (same names and resolved flags, new
nodes), and all three address lists rebuilt node by node, preserving role
membership and relative order (body of `delegpt_copy` in iter_delegpt.c is
not in src). -/
def delegpt_copy (dp : delegpt) : delegpt :=
  { name := dp.name, namelabs := dp.namelabs,
    nslist := dp.nslist.map delegpt_ns_copy,
    target_list := dp.target_list.map delegpt_addr_copy,
    usable_list := dp.usable_list.map delegpt_addr_copy,
    result_list := dp.result_list.map delegpt_addr_copy }

/-- A decoded DNS message as consumed by `delegpt_from_message`: the answer
section and the additional section, each a list of RRsets. -/
structure dns_msg where
  an : List ub_packed_rrset_key
  ad : List ub_packed_rrset_key
deriving DecidableEq, Repr

/-- Outcome of `delegpt_from_message`.  Modelled from the spec: the C
function returns a delegation point, or NULL for both "not a referral" and
allocation failure; the spec distinguishes the negative "no delegation
point" result from the allocation-failure signal, so the outcome type keeps
them as distinct constructors. -/
inductive from_msg_result where
  | ok (dp : delegpt)
  | notAReferral
  | allocFailure
deriving DecidableEq, Repr

/-- Modelled from the spec: `delegpt_from_message`, take the first NS RRset
found (answer section scanned before the additional section), use its owner
name as the delegation name and add every nameserver name in it; if no NS
record exists, return the negative "no delegation point" result; then add as
glue every A/AAAA RRset of either section whose owner name matches a
collected nameserver name (body of `delegpt_from_message` in iter_delegpt.c
is not in src). -/
def delegpt_from_message (msg : dns_msg) : from_msg_result :=
  match (msg.an ++ msg.ad).find? (fun r => r.rtype == rr_type.ns) with
  | none => from_msg_result.notAReferral
  | some nsrr =>
    let dp0 := delegpt_set_name delegpt_create nsrr.dname
    let dp1 := delegpt_rrset_add_ns dp0 nsrr
    let dp2 := (msg.an ++ msg.ad).foldl
      (fun d r =>
        match r.rtype with
        | .a => delegpt_add_rrset_A d r
        | .aaaa => delegpt_add_rrset_AAAA d r
        | _ => d) dp1
    from_msg_result.ok dp2

/-- The delegation points reachable by any sequence of the public
operations. -/
inductive delegpt_reachable : delegpt → Prop where
  | create : delegpt_reachable delegpt_create
  | copy {dp} : delegpt_reachable dp → delegpt_reachable (delegpt_copy dp)
  | set_name {dp} (nm : Dname) :
      delegpt_reachable dp → delegpt_reachable (delegpt_set_name dp nm)
  | add_ns {dp} (nm : Dname) :
      delegpt_reachable dp → delegpt_reachable (delegpt_add_ns dp nm)
  | rrset_add_ns {dp} (rrset : ub_packed_rrset_key) :
      delegpt_reachable dp → delegpt_reachable (delegpt_rrset_add_ns dp rrset)
  | add_target {dp} (nm : Dname) (a : List Nat) (al : Nat) :
      delegpt_reachable dp → delegpt_reachable (delegpt_add_target dp nm a al)
  | add_addr {dp} (a : List Nat) (al : Nat) :
      delegpt_reachable dp → delegpt_reachable (delegpt_add_addr dp a al)
  | add_rrset_A {dp} (rrset : ub_packed_rrset_key) :
      delegpt_reachable dp → delegpt_reachable (delegpt_add_rrset_A dp rrset)
  | add_rrset_AAAA {dp} (rrset : ub_packed_rrset_key) :
      delegpt_reachable dp → delegpt_reachable (delegpt_add_rrset_AAAA dp rrset)
  | add_rrset {dp} (rrset : ub_packed_rrset_key) :
      delegpt_reachable dp → delegpt_reachable (delegpt_add_rrset dp rrset)
  | add_unused_targets {dp} :
      delegpt_reachable dp → delegpt_reachable (delegpt_add_unused_targets dp)
  | from_message {msg dp} :
      delegpt_from_message msg = from_msg_result.ok dp → delegpt_reachable dp

/-- The role-partition invariant of the three address lists. -/
structure delegpt_wf (dp : delegpt) : Prop where
  nodup_target : (addr_keys dp.target_list).Nodup
  nodup_usable : (addr_keys dp.usable_list).Nodup
  nodup_result : (addr_keys dp.result_list).Nodup
  disj : ∀ k ∈ addr_keys dp.usable_list, k ∉ addr_keys dp.result_list
  usable_sub : ∀ e ∈ dp.usable_list, e ∈ dp.target_list
  result_sub : ∀ e ∈ dp.result_list, e ∈ dp.target_list

/-! ### Helper lemmas about address keys and the invariant -/

theorem addr_keys_append (l1 l2 : List delegpt_addr) :
    addr_keys (l1 ++ l2) = addr_keys l1 ++ addr_keys l2 :=
  List.map_append _ _ _

theorem addr_keys_subset {l1 l2 : List delegpt_addr}
    (h : ∀ e ∈ l1, e ∈ l2) : ∀ k ∈ addr_keys l1, k ∈ addr_keys l2 := by
  intro k hk
  rcases List.mem_map.mp hk with ⟨e, he, rfl⟩
  exact List.mem_map_of_mem _ (h e he)

theorem delegpt_addr_mem_iff {dp : delegpt} {a : List Nat} {al : Nat} :
    delegpt_addr_mem dp a al = true ↔ (a, al) ∈ addr_keys dp.target_list := by
  simp only [delegpt_addr_mem, List.any_eq_true, Bool.and_eq_true, beq_iff_eq,
    addr_keys, List.mem_map, addr_key, Prod.mk.injEq]

theorem delegpt_wf_create : delegpt_wf delegpt_create := by
  constructor <;> simp [delegpt_create, addr_keys]

theorem delegpt_wf_of_lists_eq {dp dp' : delegpt}
    (ht : dp'.target_list = dp.target_list)
    (hu : dp'.usable_list = dp.usable_list)
    (hr : dp'.result_list = dp.result_list)
    (h : delegpt_wf dp) : delegpt_wf dp' := by
  constructor
  · rw [ht]; exact h.nodup_target
  · rw [hu]; exact h.nodup_usable
  · rw [hr]; exact h.nodup_result
  · rw [hu, hr]; exact h.disj
  · rw [hu, ht]; exact h.usable_sub
  · rw [hr, ht]; exact h.result_sub

theorem delegpt_wf_add_addr {dp : delegpt} (h : delegpt_wf dp)
    (a : List Nat) (al : Nat) : delegpt_wf (delegpt_add_addr dp a al) := by
  unfold delegpt_add_addr
  by_cases hm : delegpt_addr_mem dp a al
  · simp only [hm, if_true]; exact h
  · have hnot : (a, al) ∉ addr_keys dp.target_list := by
      intro hc
      exact hm (delegpt_addr_mem_iff.mpr hc)
    have hnotu : (a, al) ∉ addr_keys dp.usable_list := by
      intro hc
      exact hnot (addr_keys_subset h.usable_sub _ hc)
    have hnotr : (a, al) ∉ addr_keys dp.result_list := by
      intro hc
      exact hnot (addr_keys_subset h.result_sub _ hc)
    simp only [hm, if_false, Bool.false_eq_true]
    constructor
    · rw [addr_keys_append]
      refine List.Nodup.append h.nodup_target (List.nodup_singleton _) ?_
      intro x hx hx'
      simp only [addr_keys, List.map_cons, List.map_nil, List.mem_singleton,
        addr_key] at hx'
      subst hx'
      exact hnot hx
    · rw [addr_keys_append]
      refine List.Nodup.append h.nodup_usable (List.nodup_singleton _) ?_
      intro x hx hx'
      simp only [addr_keys, List.map_cons, List.map_nil, List.mem_singleton,
        addr_key] at hx'
      subst hx'
      exact hnotu hx
    · exact h.nodup_result
    · intro k hk
      rw [addr_keys_append] at hk
      rcases List.mem_append.mp hk with hk | hk
      · exact h.disj k hk
      · simp only [addr_keys, List.map_cons, List.map_nil, List.mem_singleton,
          addr_key] at hk
        subst hk
        exact hnotr
    · intro e he
      rcases List.mem_append.mp he with he | he
      · exact List.mem_append_left _ (h.usable_sub e he)
      · exact List.mem_append_right _ he
    · intro e he
      exact List.mem_append_left _ (h.result_sub e he)

theorem delegpt_wf_add_target {dp : delegpt} (h : delegpt_wf dp)
    (nm : Dname) (a : List Nat) (al : Nat) :
    delegpt_wf (delegpt_add_target dp nm a al) := by
  unfold delegpt_add_target
  split
  · refine delegpt_wf_add_addr ?_ a al
    refine delegpt_wf_of_lists_eq ?_ ?_ ?_ h <;> rfl
  · exact delegpt_wf_add_addr h a al

theorem delegpt_wf_set_name {dp : delegpt} (h : delegpt_wf dp) (nm : Dname) :
    delegpt_wf (delegpt_set_name dp nm) := by
  refine delegpt_wf_of_lists_eq ?_ ?_ ?_ h <;> rfl

theorem delegpt_wf_add_ns {dp : delegpt} (h : delegpt_wf dp) (nm : Dname) :
    delegpt_wf (delegpt_add_ns dp nm) := by
  unfold delegpt_add_ns
  split
  · exact h
  · refine delegpt_wf_of_lists_eq ?_ ?_ ?_ h <;> rfl

theorem delegpt_wf_add_unused_targets {dp : delegpt} (h : delegpt_wf dp) :
    delegpt_wf (delegpt_add_unused_targets dp) := by
  constructor
  · exact h.nodup_target
  · simp [delegpt_add_unused_targets, addr_keys]
  · show (addr_keys (dp.result_list ++ dp.usable_list)).Nodup
    rw [addr_keys_append]
    refine List.Nodup.append h.nodup_result h.nodup_usable ?_
    intro x hx hx'
    exact h.disj x hx' hx
  · intro k hk
    simp [delegpt_add_unused_targets, addr_keys] at hk
  · intro e he
    simp [delegpt_add_unused_targets] at he
  · intro e he
    show e ∈ dp.target_list
    simp only [delegpt_add_unused_targets] at he
    rcases List.mem_append.mp he with he | he
    · exact h.result_sub e he
    · exact h.usable_sub e he

theorem delegpt_addr_copy_eq (e : delegpt_addr) : delegpt_addr_copy e = e :=
  rfl

theorem delegpt_ns_copy_eq (ns : delegpt_ns) : delegpt_ns_copy ns = ns :=
  rfl

theorem map_delegpt_ns_copy (l : List delegpt_ns) :
    l.map delegpt_ns_copy = l := by
  induction l with
  | nil => rfl
  | cons x xs ih => simp [delegpt_ns_copy_eq, ih]

theorem map_delegpt_addr_copy (l : List delegpt_addr) :
    l.map delegpt_addr_copy = l := by
  induction l with
  | nil => rfl
  | cons x xs ih => simp [delegpt_addr_copy_eq, ih]

theorem delegpt_copy_eq (dp : delegpt) : delegpt_copy dp = dp := by
  unfold delegpt_copy
  rw [map_delegpt_ns_copy, map_delegpt_addr_copy, map_delegpt_addr_copy,
    map_delegpt_addr_copy]

theorem delegpt_wf_foldl {α : Type} (f : delegpt → α → delegpt)
    (hf : ∀ d x, delegpt_wf d → delegpt_wf (f d x)) :
    ∀ (l : List α) (d : delegpt), delegpt_wf d → delegpt_wf (l.foldl f d)
  | [], _, h => h
  | x :: xs, d, h => delegpt_wf_foldl f hf xs (f d x) (hf d x h)

theorem delegpt_wf_rrset_add_ns {dp : delegpt} (h : delegpt_wf dp)
    (rrset : ub_packed_rrset_key) :
    delegpt_wf (delegpt_rrset_add_ns dp rrset) :=
  delegpt_wf_foldl _ (fun _d nm hd => delegpt_wf_add_ns hd nm) rrset.rdata dp h

theorem delegpt_wf_add_rrset_A {dp : delegpt} (h : delegpt_wf dp)
    (rrset : ub_packed_rrset_key) :
    delegpt_wf (delegpt_add_rrset_A dp rrset) := by
  unfold delegpt_add_rrset_A
  split
  · exact delegpt_wf_foldl _
      (fun d rd hd => delegpt_wf_add_target hd rrset.dname rd a_addrlen)
      rrset.rdata dp h
  · exact h

theorem delegpt_wf_add_rrset_AAAA {dp : delegpt} (h : delegpt_wf dp)
    (rrset : ub_packed_rrset_key) :
    delegpt_wf (delegpt_add_rrset_AAAA dp rrset) := by
  unfold delegpt_add_rrset_AAAA
  split
  · exact delegpt_wf_foldl _
      (fun d rd hd => delegpt_wf_add_target hd rrset.dname rd aaaa_addrlen)
      rrset.rdata dp h
  · exact h

theorem delegpt_wf_add_rrset {dp : delegpt} (h : delegpt_wf dp)
    (rrset : ub_packed_rrset_key) :
    delegpt_wf (delegpt_add_rrset dp rrset) := by
  unfold delegpt_add_rrset
  cases rrset.rtype with
  | ns => exact delegpt_wf_rrset_add_ns h rrset
  | a => exact delegpt_wf_add_rrset_A h rrset
  | aaaa => exact delegpt_wf_add_rrset_AAAA h rrset
  | other => exact h

theorem delegpt_wf_from_message {msg : dns_msg} {dp : delegpt}
    (h : delegpt_from_message msg = from_msg_result.ok dp) : delegpt_wf dp := by
  unfold delegpt_from_message at h
  split at h
  · exact absurd h (by simp)
  · simp only [from_msg_result.ok.injEq] at h
    subst h
    refine delegpt_wf_foldl _ ?_ _ _
      (delegpt_wf_rrset_add_ns (delegpt_wf_set_name delegpt_wf_create _) _)
    intro d r hd
    cases r.rtype with
    | ns => exact hd
    | a => exact delegpt_wf_add_rrset_A hd r
    | aaaa => exact delegpt_wf_add_rrset_AAAA hd r
    | other => exact hd

theorem delegpt_reachable_wf {dp : delegpt} (h : delegpt_reachable dp) :
    delegpt_wf dp := by
  induction h with
  | create => exact delegpt_wf_create
  | copy _ ih => rw [delegpt_copy_eq]; exact ih
  | set_name nm _ ih => exact delegpt_wf_set_name ih nm
  | add_ns nm _ ih => exact delegpt_wf_add_ns ih nm
  | rrset_add_ns rrset _ ih => exact delegpt_wf_rrset_add_ns ih rrset
  | add_target nm a al _ ih => exact delegpt_wf_add_target ih nm a al
  | add_addr a al _ ih => exact delegpt_wf_add_addr ih a al
  | add_rrset_A rrset _ ih => exact delegpt_wf_add_rrset_A ih rrset
  | add_rrset_AAAA rrset _ ih => exact delegpt_wf_add_rrset_AAAA ih rrset
  | add_rrset rrset _ ih => exact delegpt_wf_add_rrset ih rrset
  | add_unused_targets _ ih => exact delegpt_wf_add_unused_targets ih
  | from_message h => exact delegpt_wf_from_message h

/-! ### Concrete example states used to instantiate the theorems -/

/-- Example nameserver name `ns.` in wire format. -/
def ex_ns_name : Dname := [2, 110, 115, 0]

/-- Example IPv4 address bytes. -/
def ex_addr : List Nat := [192, 0, 2, 1]

/-- Example delegation point just before a promotion round: one nameserver
with one discovered address, still usable. -/
def ex_dp_pre : delegpt :=
  delegpt_add_target (delegpt_add_ns delegpt_create ex_ns_name)
    ex_ns_name ex_addr 4

/-- Example delegation point after a promotion round. -/
def ex_dp : delegpt := delegpt_add_unused_targets ex_dp_pre

/-! ### Claim theorems -/

/-- Claim C1: every delegation point reachable by any sequence of the public
operations (create, copy, set_name, add_ns, rrset_add_ns, add_target,
add_addr, add_rrset_A/AAAA, add_rrset, add_unused_targets, from_message)
satisfies the role partition: the usable and result lists are disjoint (no
address value+length in both), every address entry of the usable or result
list is a member of the target list, and no address (value + length) appears
twice in the target list. -/
theorem c1_reachable_role_partition (dp : delegpt)
    (h : delegpt_reachable dp) :
    (∀ k ∈ addr_keys dp.usable_list, k ∉ addr_keys dp.result_list) ∧
    (∀ e ∈ dp.usable_list, e ∈ dp.target_list) ∧
    (∀ e ∈ dp.result_list, e ∈ dp.target_list) ∧
    (addr_keys dp.target_list).Nodup := by
  have w := delegpt_reachable_wf h
  exact ⟨w.disj, w.usable_sub, w.result_sub, w.nodup_target⟩

/-- Witness for C1 at a concrete reachable delegation point. -/
theorem c1_reachable_role_partition_witness :
    (∀ k ∈ addr_keys ex_dp.usable_list, k ∉ addr_keys ex_dp.result_list) ∧
    (∀ e ∈ ex_dp.usable_list, e ∈ ex_dp.target_list) ∧
    (∀ e ∈ ex_dp.result_list, e ∈ ex_dp.target_list) ∧
    (addr_keys ex_dp.target_list).Nodup :=
  c1_reachable_role_partition ex_dp
    (delegpt_reachable.add_unused_targets
      (delegpt_reachable.add_target ex_ns_name ex_addr 4
        (delegpt_reachable.add_ns ex_ns_name delegpt_reachable.create)))

/-- Claim C2: after `delegpt_add_unused_targets` the usable list is empty and
the result list is exactly the pre-call result list followed by the pre-call
usable list (the existing members are not reordered, the moved ones are
appended after them); when the two lists are duplicate-free and
address-disjoint — as on every reachable state — each address appears exactly
once, and an address is in the new result list precisely when it was in the
pre-call result or usable list. -/
theorem c2_add_unused_targets_spec (dp : delegpt)
    (hu : (addr_keys dp.usable_list).Nodup)
    (hr : (addr_keys dp.result_list).Nodup)
    (hd : ∀ k ∈ addr_keys dp.usable_list, k ∉ addr_keys dp.result_list) :
    (delegpt_add_unused_targets dp).usable_list = [] ∧
    (delegpt_add_unused_targets dp).result_list
      = dp.result_list ++ dp.usable_list ∧
    (addr_keys (delegpt_add_unused_targets dp).result_list).Nodup ∧
    (∀ k, k ∈ addr_keys (delegpt_add_unused_targets dp).result_list ↔
      k ∈ addr_keys dp.result_list ∨ k ∈ addr_keys dp.usable_list) := by
  refine ⟨rfl, rfl, ?_, ?_⟩
  · show (addr_keys (dp.result_list ++ dp.usable_list)).Nodup
    rw [addr_keys_append]
    exact List.Nodup.append hr hu (fun x hx hx' => hd x hx' hx)
  · intro k
    show k ∈ addr_keys (dp.result_list ++ dp.usable_list) ↔ _
    rw [addr_keys_append]
    exact List.mem_append

/-- Witness for C2 at a concrete delegation point with a nonempty usable
list. -/
theorem c2_add_unused_targets_spec_witness :
    (delegpt_add_unused_targets ex_dp_pre).usable_list = [] ∧
    (delegpt_add_unused_targets ex_dp_pre).result_list
      = ex_dp_pre.result_list ++ ex_dp_pre.usable_list ∧
    (addr_keys (delegpt_add_unused_targets ex_dp_pre).result_list).Nodup ∧
    (∀ k, k ∈ addr_keys (delegpt_add_unused_targets ex_dp_pre).result_list ↔
      k ∈ addr_keys ex_dp_pre.result_list ∨
      k ∈ addr_keys ex_dp_pre.usable_list) :=
  c2_add_unused_targets_spec ex_dp_pre (by decide) (by decide) (by decide)

/-! ### Lemmas about `delegpt_add_target` -/

theorem delegpt_add_addr_nslist (dp : delegpt) (a : List Nat) (al : Nat) :
    (delegpt_add_addr dp a al).nslist = dp.nslist := by
  unfold delegpt_add_addr
  split <;> rfl

theorem delegpt_add_addr_of_mem {dp : delegpt} {a : List Nat} {al : Nat}
    (h : delegpt_addr_mem dp a al = true) :
    delegpt_add_addr dp a al = dp := by
  unfold delegpt_add_addr
  simp [h]

theorem delegpt_add_addr_of_not_mem {dp : delegpt} {a : List Nat} {al : Nat}
    (h : delegpt_addr_mem dp a al = false) :
    delegpt_add_addr dp a al
      = { dp with
          target_list := dp.target_list
            ++ [{ addr := a, addrlen := al, attempts := 0, sel_rtt := 0 }],
          usable_list := dp.usable_list
            ++ [{ addr := a, addrlen := al, attempts := 0, sel_rtt := 0 }] } := by
  unfold delegpt_add_addr
  rw [h]
  rfl

theorem delegpt_add_target_eq_of_found {dp : delegpt} {nm : Dname}
    {ns : delegpt_ns} (a : List Nat) (al : Nat)
    (h : delegpt_find_ns dp nm = some ns) :
    delegpt_add_target dp nm a al
      = delegpt_add_addr
          { dp with nslist := ns_mark_resolved dp.nslist nm } a al := by
  unfold delegpt_add_target
  rw [h]

theorem find_ns_mark_resolved {l : List delegpt_ns} {nm : Dname}
    {ns : delegpt_ns}
    (h : l.find? (fun e => dname_eq e.name nm) = some ns) :
    (ns_mark_resolved l nm).find? (fun e => dname_eq e.name nm)
      = some { ns with resolved := true } := by
  induction l with
  | nil => simp [List.find?] at h
  | cons x rest ih =>
    cases hx : dname_eq x.name nm with
    | true =>
      simp only [List.find?_cons, hx] at h
      cases h
      simp [ns_mark_resolved, hx, List.find?_cons]
    | false =>
      simp only [List.find?_cons, hx] at h
      simp only [ns_mark_resolved, hx, Bool.false_eq_true, if_false,
        List.find?_cons]
      exact ih h

/-- Claim C3: if the delegation point has a nameserver entry matching `nm`,
then `delegpt_add_target` marks that entry resolved, and: when the address
(value + length) is not yet in the target list, exactly one new entry (with
`attempts = 0`) is appended to the target list and to the usable list and
the result list is untouched; when the address is already present, no new
node is created and all three lists are unchanged. -/
theorem c3_add_target_spec (dp : delegpt) (nm : Dname) (a : List Nat)
    (al : Nat) (ns : delegpt_ns) (h : delegpt_find_ns dp nm = some ns) :
    (delegpt_find_ns (delegpt_add_target dp nm a al) nm
       = some { ns with resolved := true }) ∧
    (delegpt_addr_mem dp a al = false →
       (delegpt_add_target dp nm a al).target_list
         = dp.target_list
           ++ [{ addr := a, addrlen := al, attempts := 0, sel_rtt := 0 }] ∧
       (delegpt_add_target dp nm a al).usable_list
         = dp.usable_list
           ++ [{ addr := a, addrlen := al, attempts := 0, sel_rtt := 0 }] ∧
       (delegpt_add_target dp nm a al).result_list = dp.result_list) ∧
    (delegpt_addr_mem dp a al = true →
       (delegpt_add_target dp nm a al).target_list = dp.target_list ∧
       (delegpt_add_target dp nm a al).usable_list = dp.usable_list ∧
       (delegpt_add_target dp nm a al).result_list = dp.result_list) := by
  rw [delegpt_add_target_eq_of_found a al h]
  refine ⟨?_, ?_, ?_⟩
  · show ((delegpt_add_addr _ a al).nslist.find? _) = _
    rw [delegpt_add_addr_nslist]
    exact find_ns_mark_resolved h
  · intro hm
    have hm' : delegpt_addr_mem
        { dp with nslist := ns_mark_resolved dp.nslist nm } a al = false := hm
    rw [delegpt_add_addr_of_not_mem hm']
    exact ⟨rfl, rfl, rfl⟩
  · intro hm
    have hm' : delegpt_addr_mem
        { dp with nslist := ns_mark_resolved dp.nslist nm } a al = true := hm
    rw [delegpt_add_addr_of_mem hm']
    exact ⟨rfl, rfl, rfl⟩

/-- Witness for C3 at a concrete delegation point with a matching
nameserver entry. -/
theorem c3_add_target_spec_witness :
    (delegpt_find_ns
       (delegpt_add_target (delegpt_add_ns delegpt_create ex_ns_name)
         ex_ns_name ex_addr 4) ex_ns_name
       = some { name := ex_ns_name, resolved := true }) ∧
    ((delegpt_add_target (delegpt_add_ns delegpt_create ex_ns_name)
        ex_ns_name ex_addr 4).target_list
      = (delegpt_add_ns delegpt_create ex_ns_name).target_list
        ++ [{ addr := ex_addr, addrlen := 4, attempts := 0, sel_rtt := 0 }] ∧
     (delegpt_add_target (delegpt_add_ns delegpt_create ex_ns_name)
        ex_ns_name ex_addr 4).usable_list
      = (delegpt_add_ns delegpt_create ex_ns_name).usable_list
        ++ [{ addr := ex_addr, addrlen := 4, attempts := 0, sel_rtt := 0 }] ∧
     (delegpt_add_target (delegpt_add_ns delegpt_create ex_ns_name)
        ex_ns_name ex_addr 4).result_list
      = (delegpt_add_ns delegpt_create ex_ns_name).result_list) :=
  ⟨(c3_add_target_spec (delegpt_add_ns delegpt_create ex_ns_name)
      ex_ns_name ex_addr 4 { name := ex_ns_name, resolved := false }
      (by decide)).1,
   (c3_add_target_spec (delegpt_add_ns delegpt_create ex_ns_name)
      ex_ns_name ex_addr 4 { name := ex_ns_name, resolved := false }
      (by decide)).2.1 (by decide)⟩

/-- Claim C4: `delegpt_copy` rebuilds the name, the nameserver list (same
names and resolved flags) and all three address lists node by node,
preserving each entry's role membership and relative order, so the clone is
observationally identical to the original; in the explicit state-passing
model every mutator returns a new value, so mutating the clone (for example
by `delegpt_add_ns`) acts on the clone alone and the original value — and,
symmetrically, mutating the original — is untouched: the nameserver count
obtained from the mutated clone is the same whether the chain started from
the clone or from the original, while the original term is never rewritten. -/
theorem c4_copy_spec (dp : delegpt) (nm : Dname) :
    delegpt_copy dp = dp ∧
    ((delegpt_copy dp).name = dp.name ∧
     (delegpt_copy dp).nslist.map (fun ns => (ns.name, ns.resolved))
       = dp.nslist.map (fun ns => (ns.name, ns.resolved)) ∧
     (delegpt_copy dp).target_list = dp.target_list ∧
     (delegpt_copy dp).usable_list = dp.usable_list ∧
     (delegpt_copy dp).result_list = dp.result_list) ∧
    delegpt_count_ns (delegpt_add_ns (delegpt_copy dp) nm)
      = delegpt_count_ns (delegpt_add_ns dp nm) := by
  rw [delegpt_copy_eq]
  exact ⟨rfl, ⟨rfl, rfl, rfl, rfl, rfl⟩, rfl⟩

/-- Claim C5: on a decoded message containing no NS record,
`delegpt_from_message` returns the negative "no delegation point" result,
which is a different outcome from any constructed delegation point (in
particular from an empty one) and from the allocation-failure signal. -/
theorem c5_from_message_no_ns (msg : dns_msg)
    (h : ∀ r ∈ msg.an ++ msg.ad, r.rtype ≠ rr_type.ns) :
    delegpt_from_message msg = from_msg_result.notAReferral ∧
    (∀ dp : delegpt, from_msg_result.notAReferral ≠ from_msg_result.ok dp) ∧
    from_msg_result.notAReferral ≠ from_msg_result.allocFailure := by
  refine ⟨?_, fun dp => by simp, by simp⟩
  unfold delegpt_from_message
  have hn : (msg.an ++ msg.ad).find? (fun r => r.rtype == rr_type.ns) = none := by
    rw [List.find?_eq_none]
    intro r hr
    simpa using h r hr
  rw [hn]

/-- Witness for C5: a message holding a single A RRset and no NS record. -/
theorem c5_from_message_no_ns_witness :
    delegpt_from_message
      { an := [{ dname := ex_ns_name, rtype := rr_type.a, rdata := [ex_addr] }],
        ad := [] }
      = from_msg_result.notAReferral ∧
    (∀ dp : delegpt, from_msg_result.notAReferral ≠ from_msg_result.ok dp) ∧
    from_msg_result.notAReferral ≠ from_msg_result.allocFailure :=
  c5_from_message_no_ns
    { an := [{ dname := ex_ns_name, rtype := rr_type.a, rdata := [ex_addr] }],
      ad := [] }
    (by decide)

theorem delegpt_add_ns_of_found {dp : delegpt} {nm : Dname}
    (h : (delegpt_find_ns dp nm).isSome) : delegpt_add_ns dp nm = dp := by
  unfold delegpt_add_ns
  rw [if_pos h]

theorem delegpt_add_ns_of_not_found {dp : delegpt} {nm : Dname}
    (h : delegpt_find_ns dp nm = none) :
    delegpt_add_ns dp nm
      = { dp with
          nslist := dp.nslist ++ [{ name := nm, resolved := false }] } := by
  unfold delegpt_add_ns
  rw [h]
  rfl

/-- Claim C6: `delegpt_add_ns` appends a nameserver entry with
`resolved = false` when no entry with that name (case-insensitive) exists
and is a no-op otherwise; consequently, starting from a state in which at
most one entry carries the name — as on every reachable state — two calls
with the same name leave exactly one entry for it. -/
theorem c6_add_ns_spec (dp : delegpt) (nm : Dname) :
    (delegpt_find_ns dp nm = none →
      delegpt_add_ns dp nm
        = { dp with
            nslist := dp.nslist ++ [{ name := nm, resolved := false }] }) ∧
    ((delegpt_find_ns dp nm).isSome → delegpt_add_ns dp nm = dp) ∧
    ((dp.nslist.filter (fun ns => dname_eq ns.name nm)).length ≤ 1 →
      ((delegpt_add_ns (delegpt_add_ns dp nm) nm).nslist.filter
        (fun ns => dname_eq ns.name nm)).length = 1) := by
  refine ⟨fun h => delegpt_add_ns_of_not_found h,
    fun h => delegpt_add_ns_of_found h, ?_⟩
  intro hle
  cases hf : delegpt_find_ns dp nm with
  | some ns =>
    have hf' : dp.nslist.find? (fun e => dname_eq e.name nm) = some ns := hf
    have h1 : delegpt_add_ns dp nm = dp :=
      delegpt_add_ns_of_found (by rw [hf]; rfl)
    rw [h1, h1]
    have hmem : ns ∈ dp.nslist.filter (fun e => dname_eq e.name nm) := by
      rw [List.mem_filter]
      have hp := List.find?_some hf'
      exact ⟨List.mem_of_find?_eq_some hf', hp⟩
    have hpos : 0 < (dp.nslist.filter (fun e => dname_eq e.name nm)).length :=
      List.length_pos.mpr (fun he => by rw [he] at hmem; cases hmem)
    omega
  | none =>
    have h1 : delegpt_add_ns dp nm
        = { dp with
            nslist := dp.nslist ++ [{ name := nm, resolved := false }] } :=
      delegpt_add_ns_of_not_found hf
    have hrefl : dname_eq nm nm = true := by
      simp [dname_eq]
    have hnil : dp.nslist.filter (fun e => dname_eq e.name nm) = [] := by
      rw [List.filter_eq_nil_iff]
      intro e he
      have hf' : dp.nslist.find? (fun x => dname_eq x.name nm) = none := hf
      have := List.find?_eq_none.mp hf' e he
      simpa using this
    have h2 : (delegpt_add_ns dp nm).nslist.filter
        (fun e => dname_eq e.name nm)
          = [{ name := nm, resolved := false }] := by
      rw [h1]
      show (dp.nslist
        ++ [({ name := nm, resolved := false } : delegpt_ns)]).filter _ = _
      rw [List.filter_append, hnil]
      simp [hrefl]
    have h3 : (delegpt_find_ns (delegpt_add_ns dp nm) nm).isSome := by
      show ((delegpt_add_ns dp nm).nslist.find?
        (fun e => dname_eq e.name nm)).isSome
      rw [List.find?_isSome]
      have hmem' : ({ name := nm, resolved := false } : delegpt_ns)
          ∈ (delegpt_add_ns dp nm).nslist :=
        (List.mem_filter.mp (h2 ▸ List.mem_singleton.mpr rfl)).1
      exact ⟨_, hmem', hrefl⟩
    have h4 : delegpt_add_ns (delegpt_add_ns dp nm) nm
        = delegpt_add_ns dp nm :=
      delegpt_add_ns_of_found h3
    rw [h4, h2]
    rfl

/-- Witness for C6: adding the same nameserver name twice to the empty
delegation point leaves exactly one entry for it. -/
theorem c6_add_ns_spec_witness :
    (delegpt_add_ns delegpt_create ex_ns_name
      = { delegpt_create with
          nslist := delegpt_create.nslist
            ++ [{ name := ex_ns_name, resolved := false }] }) ∧
    (delegpt_add_ns (delegpt_add_ns delegpt_create ex_ns_name) ex_ns_name
      = delegpt_add_ns delegpt_create ex_ns_name) ∧
    ((delegpt_add_ns (delegpt_add_ns delegpt_create ex_ns_name)
        ex_ns_name).nslist.filter
      (fun ns => dname_eq ns.name ex_ns_name)).length = 1 :=
  ⟨(c6_add_ns_spec delegpt_create ex_ns_name).1 (by decide),
   (c6_add_ns_spec (delegpt_add_ns delegpt_create ex_ns_name)
      ex_ns_name).2.1 (by decide),
   (c6_add_ns_spec delegpt_create ex_ns_name).2.2 (by decide)⟩

/-! ### Lemmas for address dedup across list-role churn -/

/-- One of the two address-inserting operations of the interface:
`delegpt_add_target` with some nameserver name, or `delegpt_add_addr`. -/
inductive addr_op where
  | target (nm : Dname)
  | plain

/-- Apply an address-inserting operation for address `a`/`al`. -/
def apply_addr_op (o : addr_op) (a : List Nat) (al : Nat) (dp : delegpt) :
    delegpt :=
  match o with
  | .target nm => delegpt_add_target dp nm a al
  | .plain => delegpt_add_addr dp a al

theorem count_key_add_addr (dp : delegpt) (a : List Nat) (al : Nat) :
    (addr_keys (delegpt_add_addr dp a al).target_list).count (a, al)
      = max 1 ((addr_keys dp.target_list).count (a, al)) := by
  cases hm : delegpt_addr_mem dp a al with
  | true =>
    rw [delegpt_add_addr_of_mem hm]
    have hmem := delegpt_addr_mem_iff.mp hm
    have hpos : 0 < (addr_keys dp.target_list).count (a, al) :=
      List.count_pos_iff.mpr hmem
    omega
  | false =>
    rw [delegpt_add_addr_of_not_mem hm]
    show (addr_keys (dp.target_list ++ [_])).count (a, al) = _
    rw [addr_keys_append, List.count_append]
    have h0 : (addr_keys dp.target_list).count (a, al) = 0 := by
      rw [List.count_eq_zero]
      intro hc
      rw [delegpt_addr_mem_iff.mpr hc] at hm
      cases hm
    rw [h0]
    simp [addr_keys, addr_key]

theorem count_key_apply_addr_op (o : addr_op) (a : List Nat) (al : Nat)
    (dp : delegpt) :
    (addr_keys (apply_addr_op o a al dp).target_list).count (a, al)
      = max 1 ((addr_keys dp.target_list).count (a, al)) := by
  cases o with
  | plain => exact count_key_add_addr dp a al
  | target nm =>
    show (addr_keys (delegpt_add_target dp nm a al).target_list).count (a, al)
      = _
    unfold delegpt_add_target
    split
    · exact count_key_add_addr _ a al
    · exact count_key_add_addr dp a al

theorem target_list_iterate_unused (k : Nat) (dp : delegpt) :
    (delegpt_add_unused_targets^[k] dp).target_list = dp.target_list := by
  induction k generalizing dp with
  | zero => rfl
  | succ n ih =>
    rw [Function.iterate_succ_apply, ih]
    rfl

/-- Claim C7: two address-inserting calls (any mix of `delegpt_add_target`
and `delegpt_add_addr`) with the same address bytes and length, with any
number of interleaved `delegpt_add_unused_targets` promotions between them,
leave the target list with exactly one entry for that address, provided it
held at most one beforehand (as on every reachable state). -/
theorem c7_addr_dedup (o1 o2 : addr_op) (a : List Nat) (al : Nat)
    (dp : delegpt) (k : Nat)
    (h : (addr_keys dp.target_list).count (a, al) ≤ 1) :
    (addr_keys (apply_addr_op o2 a al
        (delegpt_add_unused_targets^[k]
          (apply_addr_op o1 a al dp))).target_list).count (a, al) = 1 := by
  rw [count_key_apply_addr_op]
  rw [target_list_iterate_unused k (apply_addr_op o1 a al dp)]
  rw [count_key_apply_addr_op]
  omega

/-- Witness for C7: an `add_target` then a promotion round then an
`add_addr` with the same address on the empty delegation point. -/
theorem c7_addr_dedup_witness :
    (addr_keys (apply_addr_op addr_op.plain ex_addr 4
        (delegpt_add_unused_targets^[1]
          (apply_addr_op (addr_op.target ex_ns_name) ex_addr 4
            delegpt_create))).target_list).count (ex_addr, 4) = 1 :=
  c7_addr_dedup (addr_op.target ex_ns_name) addr_op.plain ex_addr 4
    delegpt_create 1 (by decide)

/-- Claim C8: `delegpt_add_rrset_A` and `delegpt_add_rrset_AAAA` add
addresses (via `delegpt_add_target`) only when the RRset's owner name
matches an existing nameserver entry; an RRset whose owner name matches no
nameserver entry is silently ignored — the delegation point is returned
unchanged, and since the model's operations are total functions, no failure
is ever reported for mismatched names. -/
theorem c8_add_rrset_addr_spec (dp : delegpt) (rrset : ub_packed_rrset_key) :
    (delegpt_find_ns dp rrset.dname = none →
      delegpt_add_rrset_A dp rrset = dp ∧
      delegpt_add_rrset_AAAA dp rrset = dp) ∧
    ((delegpt_find_ns dp rrset.dname).isSome →
      delegpt_add_rrset_A dp rrset
        = rrset.rdata.foldl
            (fun d rd => delegpt_add_target d rrset.dname rd a_addrlen) dp ∧
      delegpt_add_rrset_AAAA dp rrset
        = rrset.rdata.foldl
            (fun d rd => delegpt_add_target d rrset.dname rd aaaa_addrlen) dp) := by
  constructor
  · intro h
    constructor
    · unfold delegpt_add_rrset_A
      rw [if_neg (by simp [h])]
    · unfold delegpt_add_rrset_AAAA
      rw [if_neg (by simp [h])]
  · intro h
    constructor
    · unfold delegpt_add_rrset_A
      rw [if_pos h]
    · unfold delegpt_add_rrset_AAAA
      rw [if_pos h]

/-- Witness for C8: an A RRset whose owner matches no nameserver entry of
the empty delegation point is ignored; one whose owner matches an entry is
folded through `delegpt_add_target`. -/
theorem c8_add_rrset_addr_spec_witness :
    (delegpt_add_rrset_A delegpt_create
        { dname := ex_ns_name, rtype := rr_type.a, rdata := [ex_addr] }
      = delegpt_create ∧
     delegpt_add_rrset_AAAA delegpt_create
        { dname := ex_ns_name, rtype := rr_type.aaaa, rdata := [ex_addr] }
      = delegpt_create) ∧
    delegpt_add_rrset_A (delegpt_add_ns delegpt_create ex_ns_name)
        { dname := ex_ns_name, rtype := rr_type.a, rdata := [ex_addr] }
      = [ex_addr].foldl
          (fun d rd => delegpt_add_target d ex_ns_name rd a_addrlen)
          (delegpt_add_ns delegpt_create ex_ns_name) :=
  ⟨⟨((c8_add_rrset_addr_spec delegpt_create
        { dname := ex_ns_name, rtype := rr_type.a, rdata := [ex_addr] }).1
        (by decide)).1,
    ((c8_add_rrset_addr_spec delegpt_create
        { dname := ex_ns_name, rtype := rr_type.aaaa, rdata := [ex_addr] }).1
        (by decide)).2⟩,
   ((c8_add_rrset_addr_spec (delegpt_add_ns delegpt_create ex_ns_name)
        { dname := ex_ns_name, rtype := rr_type.a, rdata := [ex_addr] }).2
        (by decide)).1⟩

/-- Claim C9: `delegpt_count_missing_targets` equals the number of
nameserver entries with `resolved = false`, which is exactly the missing
count reported by `delegpt_count_ns`, whose first component is the total
length of the nameserver list. -/
theorem c9_count_missing_spec (dp : delegpt) :
    delegpt_count_missing_targets dp = (delegpt_count_ns dp).2 ∧
    (delegpt_count_ns dp).1 = dp.nslist.length ∧
    delegpt_count_missing_targets dp
      = (dp.nslist.filter (fun ns => !ns.resolved)).length :=
  ⟨rfl, rfl, rfl⟩

/-- Claim C10: on every reachable delegation point, the three counts of
`delegpt_count_addr` are consistent: the number of result entries plus the
number of usable entries never exceeds the total number of (distinct)
addresses in the target list. -/
theorem c10_count_addr_consistent (dp : delegpt)
    (h : delegpt_reachable dp) :
    (delegpt_count_addr dp).2.1 + (delegpt_count_addr dp).2.2
      ≤ (delegpt_count_addr dp).1 := by
  have w := delegpt_reachable_wf h
  show dp.result_list.length + dp.usable_list.length ≤ dp.target_list.length
  have hnd : (addr_keys dp.result_list ++ addr_keys dp.usable_list).Nodup :=
    List.Nodup.append w.nodup_result w.nodup_usable
      (fun x hx hx' => w.disj x hx' hx)
  have hsub : ∀ x ∈ addr_keys dp.result_list ++ addr_keys dp.usable_list,
      x ∈ addr_keys dp.target_list := by
    intro x hx
    rcases List.mem_append.mp hx with hx | hx
    · exact addr_keys_subset w.result_sub x hx
    · exact addr_keys_subset w.usable_sub x hx
  have hle : (addr_keys dp.result_list ++ addr_keys dp.usable_list).length
      ≤ (addr_keys dp.target_list).length := by
    calc (addr_keys dp.result_list ++ addr_keys dp.usable_list).length
        = (addr_keys dp.result_list ++ addr_keys dp.usable_list).toFinset.card :=
          (List.toFinset_card_of_nodup hnd).symm
      _ ≤ (addr_keys dp.target_list).toFinset.card := by
          refine Finset.card_le_card ?_
          intro x hx
          exact List.mem_toFinset.mpr (hsub x (List.mem_toFinset.mp hx))
      _ ≤ (addr_keys dp.target_list).length := (addr_keys dp.target_list).toFinset_card_le
  rw [List.length_append] at hle
  simp only [addr_keys, List.length_map] at hle
  exact hle

/-- Witness for C10 at a concrete reachable delegation point with entries in
all three roles. -/
theorem c10_count_addr_consistent_witness :
    (delegpt_count_addr (delegpt_add_addr ex_dp [192, 0, 2, 7] 4)).2.1
        + (delegpt_count_addr (delegpt_add_addr ex_dp [192, 0, 2, 7] 4)).2.2
      ≤ (delegpt_count_addr (delegpt_add_addr ex_dp [192, 0, 2, 7] 4)).1 :=
  c10_count_addr_consistent (delegpt_add_addr ex_dp [192, 0, 2, 7] 4)
    (delegpt_reachable.add_addr [192, 0, 2, 7] 4
      (delegpt_reachable.add_unused_targets
        (delegpt_reachable.add_target ex_ns_name ex_addr 4
          (delegpt_reachable.add_ns ex_ns_name delegpt_reachable.create))))
